import Mathlib

/- Shallow embedding of src/main.py, the receipt-processor HTTP service.

   Modelling notes on Python semantics:
   - str.isalnum, digit matching and whitespace are modelled over ASCII
     (the program only meets ASCII in its spec and tests).
   - float(s) is modelled in two stages: the literal is parsed exactly into
     a rational number (pyFloatLit), which is then rounded to the nearest
     IEEE-754 binary64 value, ties to even, with overflow to infinity
     (roundDouble).  The literals inf, infinity and nan are represented
     explicitly.  Signed zero is collapsed to 0, which is observationally
     equal for every operation the program performs on it (comparison with
     0, is_integer, modulo 0.25, multiplication, math.ceil).
   - x % 0.25 == 0 on binary64 holds exactly when x is an exact integer
     multiple of 1/4 (fmod is exact for this divisor), modelled on the
     rational carried by the double.
   - float.is_integer is modelled as the rational having denominator 1. -/

def isDigitCh (c : Char) : Bool := '0' ≤ c && c ≤ '9'

def digitVal (c : Char) : Nat := c.toNat - '0'.toNat

def isPySpace (c : Char) : Bool := c == ' ' || c == '\t' || c == '\n' || c == '\r'

/-- Split a character list on a single separator character, like Python
str.split with a one-character separator: splitOnCh sep [] = [[]]. -/
def splitOnChAux (sep : Char) : List Char → List Char → List (List Char)
  | [], acc => [acc.reverse]
  | c :: cs, acc =>
    if c == sep then acc.reverse :: splitOnChAux sep cs []
    else splitOnChAux sep cs (c :: acc)

def splitOnCh (sep : Char) (l : List Char) : List (List Char) := splitOnChAux sep l []

/-- Python str.strip with no argument: drop whitespace at both ends. -/
def pyStrip (l : List Char) : List Char :=
  ((l.dropWhile isPySpace).reverse.dropWhile isPySpace).reverse

/-- Value of an IEEE-754 binary64 computation, as Python sees it. -/
inductive PyF where
  | fin (q : ℚ)
  | inf
  | ninf
  | nan
deriving DecidableEq, Repr

/-- Parse a maximal digit run that may contain single underscores between
digits (Python numeric-literal rule); returns accumulated value, number of
digits consumed, and the rest.  A dangling underscore is left unconsumed. -/
def parseDigsAux : List Char → Nat → Nat → Nat × Nat × List Char
  | [], v, n => (v, n, [])
  | c :: cs, v, n =>
    if isDigitCh c then parseDigsAux cs (10 * v + digitVal c) (n + 1)
    else if c == '_' then
      match cs with
      | d :: cs2 =>
        if isDigitCh d then parseDigsAux cs2 (10 * v + digitVal d) (n + 1)
        else (v, n, c :: cs)
      | [] => (v, n, [c])
    else (v, n, c :: cs)

def parseDigs : List Char → Option (Nat × Nat × List Char)
  | c :: cs => if isDigitCh c then some (parseDigsAux cs (digitVal c) 1) else none
  | [] => none

/-- Parse an optional exponent part and require the end of input; scale the
mantissa value accordingly. -/
def parseExpEnd (v : ℚ) : List Char → Option ℚ
  | [] => some v
  | c :: cs =>
    if c == 'e' || c == 'E' then
      let sc : Bool × List Char :=
        match cs with
        | '+' :: t => (false, t)
        | '-' :: t => (true, t)
        | t => (false, t)
      match parseDigs sc.2 with
      | some (ev, _, []) => some (if sc.1 then v / ((10 ^ ev : ℕ) : ℚ) else v * ((10 ^ ev : ℕ) : ℚ))
      | _ => none
    else none

/-- Parse the body of a Python float literal (after sign), exactly:
digits [ . [digits] ] [exp]  or  . digits [exp]. -/
def parseNumBody (l : List Char) : Option ℚ :=
  match parseDigs l with
  | some (iv, _, rest) =>
    match rest with
    | '.' :: r2 =>
      match parseDigs r2 with
      | some (fv, fn, r3) => parseExpEnd ((iv : ℚ) + (fv : ℚ) / ((10 ^ fn : ℕ) : ℚ)) r3
      | none => parseExpEnd (iv : ℚ) r2
    | _ => parseExpEnd (iv : ℚ) rest
  | none =>
    match l with
    | '.' :: r2 =>
      match parseDigs r2 with
      | some (fv, fn, r3) => parseExpEnd ((fv : ℚ) / ((10 ^ fn : ℕ) : ℚ)) r3
      | none => none
    | _ => none

/-- Case-insensitive keyword match; returns the rest on success. -/
def stripKw : List Char → List Char → Option (List Char)
  | [], l => some l
  | k :: ks, c :: cs => if c.toLower == k then stripKw ks cs else none
  | _ :: _, [] => none

/-- Exact value of a Python float literal as accepted by float(str):
surrounding whitespace, an optional sign, then either a number body or one
of inf, infinity, nan (case-insensitive).  The rational in the fin case is
the exact literal value, before rounding to binary64. -/
def pyFloatLit (s : String) : Option PyF :=
  let l := pyStrip s.data
  let sgn : Bool × List Char :=
    match l with
    | '+' :: t => (false, t)
    | '-' :: t => (true, t)
    | t => (false, t)
  match stripKw ['i', 'n', 'f', 'i', 'n', 'i', 't', 'y'] sgn.2 with
  | some [] => some (if sgn.1 then PyF.ninf else PyF.inf)
  | _ =>
    match stripKw ['i', 'n', 'f'] sgn.2 with
    | some [] => some (if sgn.1 then PyF.ninf else PyF.inf)
    | _ =>
      match stripKw ['n', 'a', 'n'] sgn.2 with
      | some [] => some PyF.nan
      | _ =>
        match parseNumBody sgn.2 with
        | some q => some (PyF.fin (if sgn.1 then -q else q))
        | none => none

/-- Floor of the base-2 logarithm, with enough fuel for every magnitude the
binary64 range can distinguish (beyond the fuel the clamping in roundPos
already forces the correct overflow or subnormal outcome). -/
def flog2Aux : Nat → Nat → Nat
  | 0, _ => 0
  | f + 1, n => if n ≤ 1 then 0 else flog2Aux f (n / 2) + 1

def flog2 (n : Nat) : Nat := flog2Aux 1100 n

/-- Round half to even on rationals. -/
def rhe (x : ℚ) : ℤ :=
  let f := ⌊x⌋
  if x - (f : ℚ) < 1 / 2 then f
  else if (1 : ℚ) / 2 < x - (f : ℚ) then f + 1
  else if f % 2 = 0 then f else f + 1

/-- Binade exponent: the e with 2 ^ e ≤ n < 2 ^ (e + 1), for n > 0. -/
def dexp (n : ℚ) : ℤ :=
  if 1 ≤ n then (flog2 ⌊n⌋.toNat : ℤ)
  else
    let k := flog2 ⌊1 / n⌋.toNat
    if (((2 ^ k : ℕ) : ℚ))⁻¹ ≤ n then -(k : ℤ) else -(k : ℤ) - 1

def pow2z (e : ℤ) : ℚ :=
  if 0 ≤ e then ((2 ^ e.toNat : ℕ) : ℚ) else (((2 ^ (-e).toNat : ℕ) : ℚ))⁻¹

/-- Round a positive rational to the nearest binary64 value (ties to even);
subnormal grid is clamped at 2 ^ (-1074), overflow goes to infinity. -/
def roundPos (n : ℚ) : PyF :=
  let e := dexp n
  let ge := max (e - 52) (-1074)
  let m := rhe (n / pow2z ge)
  let d := (m : ℚ) * pow2z ge
  if ((2 ^ 1024 : ℕ) : ℚ) ≤ d then PyF.inf else PyF.fin d

def roundDouble (q : ℚ) : PyF :=
  if q = 0 then PyF.fin 0
  else if q < 0 then
    match roundPos (-q) with
    | PyF.fin d => PyF.fin (-d)
    | _ => PyF.ninf
  else roundPos q

/-- Python float(s): parse the literal exactly, then round to binary64. -/
def pyFloat (s : String) : Option PyF :=
  (pyFloatLit s).map fun pf =>
    match pf with
    | PyF.fin q => roundDouble q
    | x => x

/-- Python comparison value < 0 on the result of float(). -/
def pfLtZero : PyF → Bool
  | PyF.fin q => q < 0
  | PyF.inf => false
  | PyF.ninf => true
  | PyF.nan => false

/-- Python float.is_integer. -/
def pfIsInteger : PyF → Bool
  | PyF.fin q => q.den == 1
  | _ => false

/-- Python total % 0.25 == 0 on binary64 (fmod is exact here, so this holds
exactly when the value is an integer multiple of 1/4). -/
def pfQuarterMod : PyF → Bool
  | PyF.fin q => (4 * q).den == 1
  | _ => false

/-- The binary64 value of the literal 0.2, as an exact rational. -/
def c02 : ℚ := 3602879701896397 / ((2 ^ 54 : ℕ) : ℚ)

/-- Binary64 multiplication on Python float values. -/
def pfMul : PyF → PyF → PyF
  | PyF.fin a, PyF.fin b => roundDouble (a * b)
  | PyF.nan, _ => PyF.nan
  | _, PyF.nan => PyF.nan
  | PyF.inf, PyF.fin b => if b = 0 then PyF.nan else if b < 0 then PyF.ninf else PyF.inf
  | PyF.fin a, PyF.inf => if a = 0 then PyF.nan else if a < 0 then PyF.ninf else PyF.inf
  | PyF.ninf, PyF.fin b => if b = 0 then PyF.nan else if b < 0 then PyF.inf else PyF.ninf
  | PyF.fin a, PyF.ninf => if a = 0 then PyF.nan else if a < 0 then PyF.inf else PyF.ninf
  | PyF.inf, PyF.inf => PyF.inf
  | PyF.inf, PyF.ninf => PyF.ninf
  | PyF.ninf, PyF.inf => PyF.ninf
  | PyF.ninf, PyF.ninf => PyF.inf

/-- math.ceil: defined on finite values, raises on inf and nan. -/
def pfCeil : PyF → Option ℤ
  | PyF.fin q => some ⌈q⌉
  | _ => none

/- ------------------------------------------------------------------ -/
/- Validators (pydantic field validators in src/main.py).             -/
/- ------------------------------------------------------------------ -/

/-- Python str.isalnum restricted to ASCII. -/
def pyIsAlnum (c : Char) : Bool := c.isAlphanum

/-- Item.validate_short_description: every character alphanumeric or in
the set space, hyphen, underscore; returns the value unchanged (modelled
as acceptance). -/
def validate_short_description (value : String) : Bool :=
  value.data.all fun c => pyIsAlnum c || c == ' ' || c == '-' || c == '_'

/-- Receipt.validate_retailer: every character alphanumeric or in the set
space, hyphen, ampersand, underscore. -/
def validate_retailer (value : String) : Bool :=
  value.data.all fun c => pyIsAlnum c || c == ' ' || c == '-' || c == '&' || c == '_'

/-- Python value.split(".")[-1]: the segment after the last dot; the whole
string when no dot occurs. -/
def lastDotSeg (s : String) : List Char := (splitOnCh '.' s.data).getLastD []

/-- Item.validate_price: try float(value); reject if it raises, if the
value is negative, or if the segment after the last dot does not have
length exactly 2 (the two inner ValueErrors are re-raised by the except
branch, so all failing paths reject). -/
def validate_price (value : String) : Bool :=
  match pyFloat value with
  | none => false
  | some pf => !pfLtZero pf && (lastDotSeg value).length == 2

/-- Receipt.validate_total reuses the price validation logic. -/
def validate_total (value : String) : Bool := validate_price value

structure Item where
  shortDescription : String
  price : String
deriving DecidableEq, Repr

structure Receipt where
  retailer : String
  purchaseDate : String
  purchaseTime : String
  items : List Item
  total : String
deriving DecidableEq, Repr

def validItem (i : Item) : Bool :=
  validate_short_description i.shortDescription && validate_price i.price

/-- Pydantic acceptance of a Receipt payload: the retailer and total field
validators pass and every item passes its field validators.  purchaseDate
and purchaseTime are plain str fields: no validator is declared for them
in src/main.py. -/
def validReceipt (r : Receipt) : Bool :=
  validate_retailer r.retailer && validate_total r.total && r.items.all validItem

/- ------------------------------------------------------------------ -/
/- datetime.strptime as used by calculate_points.                     -/
/- ------------------------------------------------------------------ -/

def allDigits (l : List Char) : Bool := l.all isDigitCh

def digitsVal (l : List Char) : Nat := l.foldl (fun a c => 10 * a + digitVal c) 0

def isLeap (y : Nat) : Bool := y % 4 == 0 && (y % 100 != 0 || y % 400 == 0)

def daysInMonth (y m : Nat) : Nat :=
  if m = 2 then (if isLeap y then 29 else 28)
  else if m = 4 ∨ m = 6 ∨ m = 9 ∨ m = 11 then 30
  else 31

/-- datetime.strptime(s, a year-month-day pattern with dashes): the year
directive matches exactly four digits, month and day match one or two
digits, the whole string must be consumed, and datetime construction
rejects year 0, month outside 1..12 and a day outside the month. -/
def parseDate (s : String) : Option (Nat × Nat × Nat) :=
  match splitOnCh '-' s.data with
  | [ys, ms, ds] =>
    if allDigits ys && ys.length == 4
        && allDigits ms && (ms.length == 1 || ms.length == 2)
        && allDigits ds && (ds.length == 1 || ds.length == 2) then
      let y := digitsVal ys
      let m := digitsVal ms
      let d := digitsVal ds
      if 1 ≤ y && 1 ≤ m && m ≤ 12 && 1 ≤ d && d ≤ daysInMonth y m then
        some (y, m, d)
      else none
    else none
  | _ => none

/-- datetime.strptime(s, an hour-minute pattern with a colon): hour and
minute each match one or two digits, hour at most 23, minute at most 59,
whole string consumed. -/
def parseTime (s : String) : Option (Nat × Nat) :=
  match splitOnCh ':' s.data with
  | [hs, ms] =>
    if allDigits hs && (hs.length == 1 || hs.length == 2)
        && allDigits ms && (ms.length == 1 || ms.length == 2) then
      let h := digitsVal hs
      let m := digitsVal ms
      if h ≤ 23 && m ≤ 59 then some (h, m) else none
    else none
  | _ => none

/- ------------------------------------------------------------------ -/
/- calculate_points (the rule engine).                                -/
/- ------------------------------------------------------------------ -/

/-- Rule 1: one point per alphanumeric character of the retailer name. -/
def retailerPoints (retailer : String) : ℤ := ((retailer.data.countP pyIsAlnum : Nat) : ℤ)

/-- Rule 2: 50 points if total.is_integer(). -/
def rule2Points (total : PyF) : ℤ := if pfIsInteger total then 50 else 0

/-- Rule 3: 25 points if total % 0.25 == 0. -/
def rule3Points (total : PyF) : ℤ := if pfQuarterMod total then 25 else 0

/-- Rule 4: 5 points for every two items. -/
def pairPoints (items : List Item) : ℤ := ((items.length / 2 * 5 : Nat) : ℤ)

/-- Rule 5, one item: parse the price with float (a ValueError propagates),
and when the stripped description length is a multiple of 3 add the
ceiling of price times the 0.2 double (math.ceil raises on inf and nan). -/
def itemPoints (i : Item) : Option ℤ := do
  let p ← pyFloat i.price
  if (pyStrip i.shortDescription.data).length % 3 == 0 then
    pfCeil (pfMul p (PyF.fin c02))
  else
    pure 0

/-- The value rule 5 awards to a qualifying item: ceil of price times the
0.2 double. -/
def descBonus (i : Item) : Option ℤ := do
  let p ← pyFloat i.price
  pfCeil (pfMul p (PyF.fin c02))

def sumItemPoints : List Item → Option ℤ
  | [] => some 0
  | i :: is => do
    let a ← itemPoints i
    let b ← sumItemPoints is
    pure (a + b)

/-- Rule 6: 6 points if the day of the purchase date is odd; strptime
raises on a malformed date, modelled as none. -/
def dayPoints (dateStr : String) : Option ℤ := do
  let ymd ← parseDate dateStr
  pure (if ymd.2.2 % 2 == 1 then 6 else 0)

/-- Rule 7: 10 points if the purchase hour is at least 14 and below 16;
strptime raises on a malformed time, modelled as none. -/
def timePoints (timeStr : String) : Option ℤ := do
  let hm ← parseTime timeStr
  pure (if 14 ≤ hm.1 && hm.1 < 16 then 10 else 0)

/-- calculate_points of src/main.py: sum of the seven contributions; none
models an uncaught exception (unparseable total or price, malformed date
or time, math.ceil on an infinite product). -/
def calculate_points (r : Receipt) : Option ℤ := do
  let total ← pyFloat r.total
  let itemsPts ← sumItemPoints r.items
  let dayPts ← dayPoints r.purchaseDate
  let timePts ← timePoints r.purchaseTime
  pure (retailerPoints r.retailer + rule2Points total + rule3Points total +
        pairPoints r.items + itemsPts + dayPts + timePts)

/- ------------------------------------------------------------------ -/
/- Store and API layer.                                               -/
/- ------------------------------------------------------------------ -/

def Store := List (String × Receipt)
deriving DecidableEq

def lookupId (db : Store) (id : String) : Option Receipt :=
  (List.find? (fun p => p.1 == id) db).map (fun p => p.2)

inductive SubmitResult where
  | fieldInvalid
  | boundaryInvalid
  | accepted (id : String)
deriving DecidableEq, Repr

inductive PointsResult where
  | notFound
  | ok (points : ℤ)
  | serverError
deriving DecidableEq, Repr

/-- POST receipts: pydantic runs the field validators first (a failure is
a client validation error before the handler body); the handler then
rejects an empty retailer, an empty items list or an empty total with the
400 invalid-receipt response; otherwise it stores the receipt under a
fresh uuid and returns the id.  The fresh uuid is passed as a parameter. -/
def process_receipt (db : Store) (freshId : String) (r : Receipt) : SubmitResult × Store :=
  if validReceipt r then
    if r.retailer == "" || r.items.isEmpty || r.total == "" then
      (SubmitResult.boundaryInvalid, db)
    else
      (SubmitResult.accepted freshId, (freshId, r) :: db)
  else (SubmitResult.fieldInvalid, db)

/-- GET points: 404 when the id is absent; otherwise calculate_points on
the stored receipt, an uncaught exception surfacing as a server error. -/
def get_receipt_points (db : Store) (id : String) : PointsResult × Store :=
  match lookupId db id with
  | none => (PointsResult.notFound, db)
  | some r =>
    match calculate_points r with
    | some p => (PointsResult.ok p, db)
    | none => (PointsResult.serverError, db)

/- ------------------------------------------------------------------ -/
/- Spec-side exact-decimal comparisons, for the refinement claim about -/
/- rules 2 and 3.                                                      -/
/- ------------------------------------------------------------------ -/

/-- Exact decimal value of a monetary string, with no binary rounding. -/
def specExactValue (s : String) : Option ℚ :=
  match pyFloatLit s with
  | some (PyF.fin q) => some q
  | _ => none

/-- Follows the spec wording: the total is a round dollar amount under
exact decimal comparison. -/
def specRoundDollar (s : String) : Bool :=
  match specExactValue s with
  | some q => q.den == 1
  | none => false

/-- Follows the spec wording: the total is an exact multiple of 0.25 under
exact decimal comparison. -/
def specQuarterMultiple (s : String) : Bool :=
  match specExactValue s with
  | some q => (4 * q).den == 1
  | none => false

/- ------------------------------------------------------------------ -/
/- General lemmas.                                                    -/
/- ------------------------------------------------------------------ -/

set_option maxRecDepth 4000
set_option exponentiation.threshold 2000

lemma pow2z_pos (e : ℤ) : 0 < pow2z e := by
  unfold pow2z
  split
  · positivity
  · positivity

lemma rhe_nonneg {x : ℚ} (hx : 0 ≤ x) : 0 ≤ rhe x := by
  have hf : (0 : ℤ) ≤ ⌊x⌋ := Int.floor_nonneg.mpr hx
  unfold rhe
  dsimp only
  split
  · exact hf
  · split
    · omega
    · split
      · exact hf
      · omega

lemma roundPos_fin_nonneg {n d : ℚ} (hn : 0 ≤ n) (h : roundPos n = PyF.fin d) : 0 ≤ d := by
  unfold roundPos at h
  dsimp only at h
  split at h
  · exact absurd h (by simp)
  · rw [PyF.fin.injEq] at h
    rw [← h]
    have h1 : 0 ≤ n / pow2z ((dexp n - 52) ⊔ (-1074)) :=
      div_nonneg hn (le_of_lt (pow2z_pos _))
    have h2 : (0 : ℚ) ≤ ((rhe (n / pow2z ((dexp n - 52) ⊔ (-1074)))) : ℚ) := by
      exact_mod_cast rhe_nonneg h1
    exact mul_nonneg h2 (le_of_lt (pow2z_pos _))

lemma roundDouble_fin_nonneg {q d : ℚ} (hq : 0 ≤ q) (h : roundDouble q = PyF.fin d) : 0 ≤ d := by
  unfold roundDouble at h
  split at h
  · rw [PyF.fin.injEq] at h
    rw [← h]
  · split at h
    · rename_i hq0 hneg
      exact absurd hneg (not_lt.mpr hq)
    · exact roundPos_fin_nonneg hq h

lemma c02_nonneg : 0 ≤ c02 := by
  unfold c02
  positivity

lemma itemBonus_nonneg {pf : PyF} {z : ℤ} (hpf : pfLtZero pf = false)
    (h : pfCeil (pfMul pf (PyF.fin c02)) = some z) : 0 ≤ z := by
  cases pf with
  | fin q =>
    have hq : 0 ≤ q := by
      simp [pfLtZero] at hpf
      exact hpf
    have hmul : pfMul (PyF.fin q) (PyF.fin c02) = roundDouble (q * c02) := rfl
    rw [hmul] at h
    cases hr : roundDouble (q * c02) with
    | fin e =>
      rw [hr] at h
      simp [pfCeil] at h
      rw [← h]
      exact Int.ceil_nonneg (roundDouble_fin_nonneg (mul_nonneg hq c02_nonneg) hr)
    | inf => rw [hr] at h; simp [pfCeil] at h
    | ninf => rw [hr] at h; simp [pfCeil] at h
    | nan => rw [hr] at h; simp [pfCeil] at h
  | inf =>
    have : pfMul PyF.inf (PyF.fin c02) = PyF.inf := by
      have hc : ¬ (c02 = 0) := by unfold c02; norm_num
      have hc2 : ¬ (c02 < 0) := not_lt.mpr c02_nonneg
      simp [pfMul, hc, hc2]
    rw [this] at h
    simp [pfCeil] at h
  | ninf => simp [pfLtZero] at hpf
  | nan =>
    have : pfMul PyF.nan (PyF.fin c02) = PyF.nan := rfl
    rw [this] at h
    simp [pfCeil] at h

lemma itemPoints_nonneg {i : Item} {z : ℤ} (hv : validItem i = true)
    (h : itemPoints i = some z) : 0 ≤ z := by
  unfold itemPoints at h
  cases hp : pyFloat i.price with
  | none => rw [hp] at h; simp at h
  | some pf =>
    rw [hp] at h
    simp only [Option.bind_eq_bind, Option.some_bind] at h
    have hpf : pfLtZero pf = false := by
      unfold validItem validate_price at hv
      rw [hp] at hv
      simp only [Bool.and_eq_true, Bool.not_eq_true'] at hv
      exact hv.2.1
    split at h
    · exact itemBonus_nonneg hpf h
    · simp at h
      omega

lemma sumItemPoints_nonneg {items : List Item} {z : ℤ}
    (hv : items.all validItem = true) (h : sumItemPoints items = some z) : 0 ≤ z := by
  induction items generalizing z with
  | nil =>
    simp [sumItemPoints] at h
    omega
  | cons i is ih =>
    simp only [List.all_cons, Bool.and_eq_true] at hv
    unfold sumItemPoints at h
    cases ha : itemPoints i with
    | none => rw [ha] at h; simp at h
    | some a =>
      rw [ha] at h
      cases hb : sumItemPoints is with
      | none => rw [hb] at h; simp at h
      | some b =>
        rw [hb] at h
        simp at h
        have h1 := itemPoints_nonneg hv.1 ha
        have h2 := ih hv.2 hb
        omega

lemma dayPoints_nonneg {s : String} {z : ℤ} (h : dayPoints s = some z) : 0 ≤ z := by
  unfold dayPoints at h
  cases hp : parseDate s with
  | none => rw [hp] at h; simp at h
  | some ymd =>
    rw [hp] at h
    simp at h
    split at h <;> omega

lemma timePoints_nonneg {s : String} {z : ℤ} (h : timePoints s = some z) : 0 ≤ z := by
  unfold timePoints at h
  cases hp : parseTime s with
  | none => rw [hp] at h; simp at h
  | some hm =>
    rw [hp] at h
    simp at h
    split at h <;> omega

lemma retailerPoints_nonneg (s : String) : 0 ≤ retailerPoints s := by
  unfold retailerPoints
  positivity

lemma rule2Points_nonneg (t : PyF) : 0 ≤ rule2Points t := by
  unfold rule2Points
  split <;> omega

lemma rule3Points_nonneg (t : PyF) : 0 ≤ rule3Points t := by
  unfold rule3Points
  split <;> omega

lemma pairPoints_nonneg (items : List Item) : 0 ≤ pairPoints items := by
  unfold pairPoints
  positivity

/- ------------------------------------------------------------------ -/
/- Concrete receipts used by witnesses and counterexamples.           -/
/- ------------------------------------------------------------------ -/

/-- A fully well-formed receipt: 6 retailer points, quarter-multiple total
(25), even day, morning time, one short item: 31 points. -/
def targetReceipt : Receipt :=
  { retailer := "Target", purchaseDate := "2022-01-02", purchaseTime := "13:01",
    items := [{ shortDescription := "Pepsi", price := "1.25" }], total := "1.25" }

/-- Same receipt with a purchase date that the date pattern rejects; every
declared field validator still passes. -/
def badDateReceipt : Receipt :=
  { retailer := "Target", purchaseDate := "January 2, 2022", purchaseTime := "13:01",
    items := [{ shortDescription := "Pepsi", price := "1.25" }], total := "1.25" }

/-- Validator-passing receipt whose month field is out of range, so the
points computation raises instead of returning. -/
def month13Receipt : Receipt :=
  { retailer := "Target", purchaseDate := "2022-13-03", purchaseTime := "13:01",
    items := [{ shortDescription := "Pepsi", price := "1.25" }], total := "1.25" }

/-- Claim C5, counterexample: a receipt that passes every Validator check
yet whose points computation does not return an integer at all (the date
parse in the rule engine raises), refuting the claim as stated. -/
theorem c5_counterexample :
    validReceipt month13Receipt = true ∧ calculate_points month13Receipt = none :=
  ⟨by with_unfolding_all rfl, by with_unfolding_all rfl⟩

/-- Claim C5, amended: for every receipt that passes all Validator checks
and on which the points computation completes (returns a value rather
than raising on the unvalidated date or time field or on an infinite
product), the result is a non-negative integer: every one of the seven
contributions is non-negative. -/
theorem c5_points_nonneg (r : Receipt) (n : ℤ)
    (hv : validReceipt r = true) (hc : calculate_points r = some n) : 0 ≤ n := by
  unfold calculate_points at hc
  cases ht : pyFloat r.total with
  | none => rw [ht] at hc; simp at hc
  | some total =>
    rw [ht] at hc
    cases hs : sumItemPoints r.items with
    | none => rw [hs] at hc; simp at hc
    | some itemsPts =>
      rw [hs] at hc
      cases hd : dayPoints r.purchaseDate with
      | none => rw [hd] at hc; simp at hc
      | some dayPts =>
        rw [hd] at hc
        cases htm : timePoints r.purchaseTime with
        | none => rw [htm] at hc; simp at hc
        | some timePts =>
          rw [htm] at hc
          simp at hc
          have hitems : r.items.all validItem = true := by
            unfold validReceipt at hv
            simp only [Bool.and_eq_true] at hv
            exact hv.2
          have h1 := retailerPoints_nonneg r.retailer
          have h2 := rule2Points_nonneg total
          have h3 := rule3Points_nonneg total
          have h4 := pairPoints_nonneg r.items
          have h5 := sumItemPoints_nonneg hitems hs
          have h6 := dayPoints_nonneg hd
          have h7 := timePoints_nonneg htm
          omega

/-- Claim C5, witness: the amended theorem applied to a concrete valid
receipt whose computation completes with 31 points. -/
theorem c5_points_nonneg_witness :
    validReceipt targetReceipt = true ∧ calculate_points targetReceipt = some 31 ∧ (0 : ℤ) ≤ 31 :=
  ⟨by with_unfolding_all rfl, by with_unfolding_all rfl,
    c5_points_nonneg targetReceipt 31 (by with_unfolding_all rfl) (by with_unfolding_all rfl)⟩

/-- Claim C1: the code has no validator on purchaseDate or purchaseTime, so
a receipt with a malformed date passes submission, is stored, and the Rule
Engine is invoked on it at fetch time, where the date parse raises (an
internal server error instead of the claimed client-error at submission). -/
theorem c1_malformed_date_is_stored_and_reaches_engine :
    validReceipt badDateReceipt = true ∧
    parseDate badDateReceipt.purchaseDate = none ∧
    process_receipt [] "id-1" badDateReceipt =
      (SubmitResult.accepted "id-1", [("id-1", badDateReceipt)]) ∧
    (get_receipt_points [("id-1", badDateReceipt)] "id-1").1 = PointsResult.serverError :=
  ⟨by with_unfolding_all rfl, by with_unfolding_all rfl,
   by with_unfolding_all rfl, by with_unfolding_all rfl⟩

/-- Claim C4: rules 2 and 3 compare the binary64 value of the total, not
the exact decimal value.  The two comparisons differ at the validator-
accepted total 2251799813685248.10: under exact decimal comparison it is
neither a round dollar nor a multiple of 0.25, yet the code awards both
bonuses (75 points) because the binary64 nearest value is the integer
2251799813685248.  At 100.00 the two agree and both bonuses (75) apply. -/
theorem c4_float_comparison_not_exact_decimal :
    validate_total "2251799813685248.10" = true ∧
    specRoundDollar "2251799813685248.10" = false ∧
    specQuarterMultiple "2251799813685248.10" = false ∧
    (pyFloat "2251799813685248.10").map (fun t => rule2Points t + rule3Points t) = some 75 ∧
    (pyFloat "100.00").map (fun t => rule2Points t + rule3Points t) = some 75 :=
  ⟨by with_unfolding_all rfl, by with_unfolding_all rfl, by with_unfolding_all rfl,
   by with_unfolding_all rfl, by with_unfolding_all rfl⟩

/-- Claim C2, counterexample: the claim says numeric text missing the
decimal point entirely is rejected, but the validator accepts the dot-free
string 42 (the split on dots returns the whole string, whose length is 2). -/
theorem c2_counterexample :
    ("42".data.contains '.') = false ∧ validate_price "42" = true :=
  ⟨by with_unfolding_all rfl, by with_unfolding_all rfl⟩

/-- Claim C2, amended: the shared price/total validator accepts a string
exactly when float() parses it, its value is not negative, and the segment
after the last dot - the entire string when no dot is present - has length
exactly 2.  So 19.9 and 19.99 behave as claimed, but a dot-free numeric
string of length two such as 42 is accepted, and the two characters after
the dot need not be digits. -/
theorem c2_price_rule_amended :
    (∀ v : String, validate_price v = true ↔
      (∃ pf, pyFloat v = some pf ∧ pfLtZero pf = false ∧ (lastDotSeg v).length = 2)) ∧
    validate_price "19.9" = false ∧
    validate_price "19.999" = false ∧
    validate_price "19.99" = true ∧
    validate_price "not-a-price" = false ∧
    validate_price "42" = true := by
  refine ⟨?_, by with_unfolding_all rfl, by with_unfolding_all rfl,
    by with_unfolding_all rfl, by with_unfolding_all rfl, by with_unfolding_all rfl⟩
  intro v
  unfold validate_price
  cases h : pyFloat v with
  | none => simp
  | some pf =>
    simp only [Bool.and_eq_true, Bool.not_eq_true', beq_iff_eq]
    constructor
    · intro hx
      exact ⟨pf, rfl, hx.1, hx.2⟩
    · rintro ⟨pf2, hpf2, h1, h2⟩
      rw [Option.some_inj] at hpf2
      rw [hpf2]
      exact ⟨h1, h2⟩

/-- Claim C2, witness: the amended equivalence applied at 19.99. -/
theorem c2_price_rule_amended_witness :
    validate_price "19.99" = true ↔
      (∃ pf, pyFloat "19.99" = some pf ∧ pfLtZero pf = false ∧ (lastDotSeg "19.99").length = 2) :=
  c2_price_rule_amended.1 "19.99"

/-- Claim C3, counterexample: the claim says the empty string fails the
shortDescription validator, but all() over an empty string is vacuously
true and no length check exists, so the empty string is accepted. -/
theorem c3_counterexample : validate_short_description "" = true := by
  with_unfolding_all rfl

/-- Claim C3, amended: the shortDescription validator accepts a string
exactly when every character is alphanumeric or a space, hyphen or
underscore; the empty string is accepted vacuously. -/
theorem c3_description_rule_amended :
    (∀ s : String, validate_short_description s = true ↔
      ∀ c ∈ s.data, (pyIsAlnum c || c == ' ' || c == '-' || c == '_') = true) ∧
    validate_short_description "" = true ∧
    validate_short_description "Invalid@Item!" = false := by
  refine ⟨?_, by with_unfolding_all rfl, by with_unfolding_all rfl⟩
  intro s
  unfold validate_short_description
  rw [List.all_eq_true]

/-- Claim C3, witness: the amended equivalence applied at a concrete
description with all four allowed character kinds. -/
theorem c3_description_rule_amended_witness :
    validate_short_description "Item-1 A_b" = true ↔
      ∀ c ∈ "Item-1 A_b".data, (pyIsAlnum c || c == ' ' || c == '-' || c == '_') = true :=
  c3_description_rule_amended.1 "Item-1 A_b"

/-- Receipt equal to targetReceipt except for the purchase time. -/
def withTime (t : String) : Receipt :=
  { retailer := "Target", purchaseDate := "2022-01-02", purchaseTime := t,
    items := [{ shortDescription := "Pepsi", price := "1.25" }], total := "1.25" }

/-- Claim C6: whenever the purchase time parses with hour h, rule 7
contributes 10 exactly when 14 is at most h and h is below 16, independent
of the minutes; at the boundaries, 14:00 earns 10 while 16:00 and 13:59
earn 0, and on a full receipt the same 10-point difference shows up in the
total. -/
theorem c6_afternoon_bonus :
    (∀ (t : String) (h m : Nat), parseTime t = some (h, m) →
      timePoints t = some (if 14 ≤ h ∧ h < 16 then 10 else 0)) ∧
    timePoints "14:00" = some 10 ∧
    timePoints "16:00" = some 0 ∧
    timePoints "13:59" = some 0 ∧
    calculate_points (withTime "14:00") = some 41 ∧
    calculate_points (withTime "16:00") = some 31 ∧
    calculate_points (withTime "13:59") = some 31 := by
  refine ⟨?_, by with_unfolding_all rfl, by with_unfolding_all rfl, by with_unfolding_all rfl,
    by with_unfolding_all rfl, by with_unfolding_all rfl, by with_unfolding_all rfl⟩
  intro t h m hp
  unfold timePoints
  rw [hp]
  simp only [Option.bind_eq_bind, Option.some_bind]
  refine congrArg some (if_congr ?_ rfl rfl)
  simp [Bool.and_eq_true]

/-- Claim C6, witness: the general statement applied at 14:30. -/
theorem c6_afternoon_bonus_witness :
    timePoints "14:30" = some (if 14 ≤ 14 ∧ 14 < 16 then 10 else 0) :=
  c6_afternoon_bonus.1 "14:30" 14 30 (by with_unfolding_all rfl)

/-- A receipt whose retailer contains a forbidden character. -/
def atSignReceipt : Receipt :=
  { retailer := "Bad@Shop", purchaseDate := "2022-01-02", purchaseTime := "13:01",
    items := [{ shortDescription := "Pepsi", price := "1.25" }], total := "1.25" }

lemma retailer_at_invalid {r : Receipt} (h : '@' ∈ r.retailer.data) :
    validate_retailer r.retailer = false := by
  rw [Bool.eq_false_iff]
  intro hall
  unfold validate_retailer at hall
  rw [List.all_eq_true] at hall
  have := hall '@' h
  simp [pyIsAlnum, Char.isAlphanum, Char.isAlpha, Char.isUpper, Char.isLower, Char.isDigit] at this

lemma validReceipt_false_of_retailer {r : Receipt} (h : validate_retailer r.retailer = false) :
    validReceipt r = false := by
  unfold validReceipt
  rw [h]
  rfl

lemma process_not_accepted_store_unchanged {db : Store} {f : String} {r : Receipt}
    (h : validReceipt r = false ∨ (r.retailer == "" || r.items.isEmpty || r.total == "") = true) :
    (∀ id, (process_receipt db f r).1 ≠ SubmitResult.accepted id) ∧
      (process_receipt db f r).2 = db := by
  unfold process_receipt
  rcases h with h | h
  · rw [h]
    simp
  · cases hv : validReceipt r
    · simp
    · rw [h]
      simp

/-- Claim C7: the submission operation rejects - without storing anything -
a receipt whose retailer contains the at sign (field-validator failure), a
receipt with an empty items list, one with an empty retailer and one with
an empty total; and the non-emptiness checks in the handler body fire even
for a receipt every field validator accepted (an empty retailer passes the
character check vacuously and is only stopped by the boundary check). -/
theorem c7_submission_boundary_rejections :
    (∀ (db : Store) (f : String) (r : Receipt), '@' ∈ r.retailer.data →
      process_receipt db f r = (SubmitResult.fieldInvalid, db)) ∧
    (∀ (db : Store) (f : String) (r : Receipt), r.items = [] →
      (∀ id, (process_receipt db f r).1 ≠ SubmitResult.accepted id) ∧
        (process_receipt db f r).2 = db) ∧
    (∀ (db : Store) (f : String) (r : Receipt), r.retailer = "" →
      (∀ id, (process_receipt db f r).1 ≠ SubmitResult.accepted id) ∧
        (process_receipt db f r).2 = db) ∧
    (∀ (db : Store) (f : String) (r : Receipt), r.total = "" →
      (∀ id, (process_receipt db f r).1 ≠ SubmitResult.accepted id) ∧
        (process_receipt db f r).2 = db) ∧
    (∀ (db : Store) (f : String) (r : Receipt), r.retailer = "" → validReceipt r = true →
      (process_receipt db f r).1 = SubmitResult.boundaryInvalid) := by
  refine ⟨?_, ?_, ?_, ?_, ?_⟩
  · intro db f r h
    unfold process_receipt
    rw [validReceipt_false_of_retailer (retailer_at_invalid h)]
    rfl
  · intro db f r h
    refine process_not_accepted_store_unchanged (Or.inr ?_)
    rw [h]
    simp
  · intro db f r h
    refine process_not_accepted_store_unchanged (Or.inr ?_)
    rw [h]
    simp
  · intro db f r h
    refine process_not_accepted_store_unchanged (Or.inl ?_)
    unfold validReceipt validate_total
    rw [h]
    have : validate_price "" = false := by with_unfolding_all rfl
    rw [this]
    simp
  · intro db f r h hv
    unfold process_receipt
    rw [hv, h]
    simp

/-- Claim C7, witness: the first conjunct applied to a concrete receipt
whose retailer contains the at sign. -/
theorem c7_submission_boundary_rejections_witness :
    process_receipt [] "id-1" atSignReceipt = (SubmitResult.fieldInvalid, []) :=
  c7_submission_boundary_rejections.1 [] "id-1" atSignReceipt (by decide)

/-- Claim C8: the points fetch returns the not-found response exactly when
the identifier is absent from the store, and the identifier just issued by
a successful submission is never answered with not-found. -/
theorem c8_not_found_iff_absent :
    (∀ (db : Store) (id : String),
      (get_receipt_points db id).1 = PointsResult.notFound ↔ lookupId db id = none) ∧
    (∀ (db db2 : Store) (f id : String) (r : Receipt),
      process_receipt db f r = (SubmitResult.accepted id, db2) →
      (get_receipt_points db2 id).1 ≠ PointsResult.notFound) := by
  constructor
  · intro db id
    unfold get_receipt_points
    cases hl : lookupId db id with
    | none => simp
    | some r =>
      cases hc : calculate_points r with
      | none => simp [hc]
      | some p => simp [hc]
  · intro db db2 f id r h
    unfold process_receipt at h
    split at h
    · split at h
      · exact absurd (congrArg Prod.fst h) (by simp)
      · rw [Prod.mk.injEq, SubmitResult.accepted.injEq] at h
        rcases h with ⟨hf, hdb⟩
        have hlook : lookupId db2 id = some r := by
          rw [← hdb, ← hf]
          unfold lookupId
          simp [List.find?]
        unfold get_receipt_points
        rw [hlook]
        cases hc : calculate_points r <;> simp [hc]
    · exact absurd (congrArg Prod.fst h) (by simp)

/-- Claim C8, witness: the submission of a concrete receipt followed by a
fetch of the issued identifier. -/
theorem c8_not_found_iff_absent_witness :
    (get_receipt_points [("id-1", targetReceipt)] "id-1").1 ≠ PointsResult.notFound :=
  c8_not_found_iff_absent.2 [] [("id-1", targetReceipt)] "id-1" "id-1" targetReceipt
    (by with_unfolding_all rfl)

/-- Claim C9: the fetch operation leaves the store unchanged, and a second
fetch of the same identifier returns exactly the same response (the points
function is deterministic in the stored fields). -/
theorem c9_fetch_idempotent :
    ∀ (db : Store) (id : String),
      (get_receipt_points db id).2 = db ∧
      get_receipt_points (get_receipt_points db id).2 id = get_receipt_points db id := by
  intro db id
  have h2 : (get_receipt_points db id).2 = db := by
    unfold get_receipt_points
    cases hl : lookupId db id with
    | none => simp
    | some r => cases hc : calculate_points r <;> simp [hc]
  exact ⟨h2, by rw [h2]⟩

/-- Claim C9, witness: the statement applied to a concrete store and
identifier. -/
theorem c9_fetch_idempotent_witness :
    (get_receipt_points [("id-1", targetReceipt)] "id-1").2 = [("id-1", targetReceipt)] ∧
    get_receipt_points (get_receipt_points [("id-1", targetReceipt)] "id-1").2 "id-1" =
      get_receipt_points [("id-1", targetReceipt)] "id-1" :=
  c9_fetch_idempotent [("id-1", targetReceipt)] "id-1"

/-- Claim C10: an item whose description strips to the empty string still
takes the qualifying branch of rule 5, because a stripped length of 0 is
divisible by 3, and so receives the ceil of price times 0.2; concretely a
three-space description with price 2.00 earns 1 point, and such a
description passes validation. -/
theorem c10_trim_empty_gets_bonus :
    (∀ i : Item, pyStrip i.shortDescription.data = [] → itemPoints i = descBonus i) ∧
    validate_short_description "   " = true ∧
    itemPoints { shortDescription := "   ", price := "2.00" } = some 1 ∧
    descBonus { shortDescription := "   ", price := "2.00" } = some 1 := by
  refine ⟨?_, by with_unfolding_all rfl, by with_unfolding_all rfl, by with_unfolding_all rfl⟩
  intro i h
  unfold itemPoints descBonus
  rw [h]
  rfl

/-- Claim C10, witness: the general statement applied to a concrete item
with a two-space description. -/
theorem c10_trim_empty_gets_bonus_witness :
    itemPoints { shortDescription := "  ", price := "2.00" } =
      descBonus { shortDescription := "  ", price := "2.00" } :=
  c10_trim_empty_gets_bonus.1 { shortDescription := "  ", price := "2.00" }
    (by with_unfolding_all rfl)
